import Mathlib

/-!
Verification of the Galaxy role-import pipeline
(`galaxy/main/celerytasks/tasks.py`).

Strings from the Python source are modelled as `List Char` so that every
definition is executable and decidable.  Each definition carries a comment
pointing at the source lines it embeds.
-/

set_option maxRecDepth 10000

namespace Galaxy

/-- Strings of the source are modelled as lists of characters. -/
abbrev Str := List Char

/-- `s.split(sep)` of Python: splits on every occurrence of `sep`,
keeping empty pieces; the result is never empty. -/
def pySplit (sep : Char) (s : Str) : List Str :=
  match s with
  | [] => [[]]
  | c :: rest =>
    match pySplit sep rest with
    | [] => [[]]
    | p :: ps => if c = sep then [] :: p :: ps else (c :: p) :: ps

/-- `'.'.join(names)` of Python. -/
def joinDot (l : List Str) : Str :=
  match l with
  | [] => []
  | [s] => s
  | s :: rest => s ++ '.' :: joinDot rest

/-- The character class `[a-zA-Z0-9]` of the tag regexes (ASCII only,
exactly as the Python 2 `re` module on byte strings). -/
def isAlnumAscii (c : Char) : Bool :=
  (c ≥ 'A' && c ≤ 'Z') || (c ≥ 'a' && c ≤ 'z') || (c ≥ '0' && c ≤ '9')

/-- The regex check `re.match` against pattern `^[a-zA-Z0-9]+$` — used for legacy `categories`
tokens (tasks.py line 401). -/
def validCategoryTok (t : Str) : Bool :=
  !t.isEmpty && t.all isAlnumAscii

/-- The regex check `re.match` against pattern `^[a-zA-Z0-9:]+$` — used for `galaxy_tags` tokens
(tasks.py line 413). -/
def validGalaxyTok (t : Str) : Bool :=
  !t.isEmpty && t.all (fun c => isAlnumAscii c || c = ':')

/-- Set-style insertion into an association list: a no-op when the element
is already present (the semantics of a Django many-to-many `add` and of
`get_or_create`). -/
def insertNew {α : Type} [DecidableEq α] (acc : List α) (t : α) : List α :=
  if t ∈ acc then acc else acc ++ [t]

/-- First-occurrence deduplication; `list(set(xs))` up to ordering
(only set membership of the result is ever used downstream). -/
def dedup (l : List Str) : List Str :=
  l.foldl insertNew []

/-- Message severities stored in `message_type`
("INFO"/"WARNING"/"ERROR" plus the terminal status messages). -/
inductive MsgType
  | INFO
  | WARNING
  | ERROR
  | SUCCESS
  | FAILED
deriving DecidableEq, Repr

/-- One diagnostic message of an import task.  `fromAbort` marks the single
message created by ` fail_import_task` (the fatal-abort path) as opposed to
ordinary `add_message` calls. -/
structure Msg where
  mtype : MsgType
  text : Str
  fromAbort : Bool := false
deriving DecidableEq, Repr

/-- `add_message` truncates to 255 characters (tasks.py line 150). -/
def mkMsg (t : MsgType) (s : Str) : Msg :=
  ⟨t, s.take 255, false⟩

/-! ### Tag extraction (tasks.py lines 389-430) -/

/-- A metadata field that the code probes with `isinstance`/`hasattr`
checks: absent (or `None`), present but not an iterable list
(string or scalar), or an actual list of strings. -/
inductive IterField
  | absent
  | notIter
  | items (l : List Str)
deriving DecidableEq, Repr

/-- Colon-splitting and per-token validation of the legacy
`galaxy_info.categories` list (tasks.py lines 399-404): every element is
split on ':', valid tokens are collected, each invalid token yields a
WARNING. -/
def collectCategoryToks (cats : List Str) : List Str × List Msg :=
  cats.foldl
    (fun acc category =>
      (pySplit ':' category).foldl
        (fun acc cat =>
          if validCategoryTok cat then (acc.1 ++ [cat], acc.2)
          else (acc.1, acc.2 ++ [mkMsg .WARNING (cat ++ " is not a valid tag".toList)]))
        acc)
    ([], [])

/-- Colon-splitting and per-token validation of `galaxy_info.galaxy_tags`
(tasks.py lines 411-416). -/
def collectGalaxyToks (tags : List Str) : List Str × List Msg :=
  tags.foldl
    (fun acc tag =>
      (pySplit ':' tag).foldl
        (fun acc t =>
          if validGalaxyTok t then (acc.1 ++ [t], acc.2)
          else (acc.1, acc.2 ++ [mkMsg .WARNING (t ++ " is not a valid tag. Skipping.".toList)]))
        acc)
    ([], [])

/-- The WARNING emitted when more than 20 tags are found
(tasks.py lines 424-427). -/
def tagTruncWarn : Msg :=
  mkMsg .WARNING ("Found more than 20 values for galaxy_info.galaxy_tags in meta/main.yml. Only the first 20 will be used.".toList)

/-- The ERROR emitted when no valid tags remain (tasks.py lines 419-422). -/
def noTagsError : Msg :=
  mkMsg .ERROR ("No values found for galaxy_tags. galaxy_info.galaxy_tags must be an iterable list in meta/main.yml".toList)

/-- Processing of one `IterField` of tag-bearing metadata: the truthiness
check `if galaxy_info.get(key, None):` (an empty list is falsy and skipped
entirely), the `isinstance`/`hasattr` iterability ERROR, and token
collection. `preMsgs` holds the messages emitted before iterating (the
deprecation WARNING for `categories`). -/
def collectTagField (collect : List Str → List Str × List Msg)
    (iterErr : Msg) (preMsgs : List Msg) : IterField → List Str × List Msg
  | .absent => ([], [])
  | .notIter => ([], preMsgs ++ [iterErr])
  | .items l =>
    if l.isEmpty then ([], [])
    else
      let r := collect l
      (r.1, preMsgs ++ r.2)

/-- Raw `meta_tags` collection from `categories` and `galaxy_tags`
(tasks.py lines 391-416), in source order, before the empty/overflow
checks. -/
def rawMetaTags (cats gtags : IterField) : List Str × List Msg :=
  let c := collectTagField collectCategoryToks
    (mkMsg .ERROR ("In meta/main.yml galaxy_info.categories must be an iterable list.".toList))
    [mkMsg .WARNING ("Found galaxy_info.categories. Update meta/main.yml to use galaxy_info.galaxy_tags.".toList)]
    cats
  let g := collectTagField collectGalaxyToks
    (mkMsg .ERROR ("In meta/main.yml galaxy_info.galaxy_tags must be an iterable list.".toList))
    []
    gtags
  (c.1 ++ g.1, c.2 ++ g.2)

/-- Full tag-list computation (tasks.py lines 389-430): collect tokens,
ERROR when none, WARNING and truncate to the first 20 when more than 20,
then `list(set(...))` (modelled as first-occurrence `dedup`; only set
membership is used afterwards). -/
def metaTagsOf (cats gtags : IterField) : List Str × List Msg :=
  let r := rawMetaTags cats gtags
  let emptyMsgs := if r.1.length = 0 then [noTagsError] else []
  let (capped, warnMsgs) :=
    if r.1.length > 20 then (r.1.take 20, [tagTruncWarn]) else (r.1, [])
  (dedup capped, r.2 ++ emptyMsgs ++ warnMsgs)

/-- One reconciliation run over the stored tag names of the role
(tasks.py lines 432-445): the add pass appends each meta tag whose name is
not yet associated, the remove pass drops every stored tag whose name is
not among the meta tags.  `added`/`removed` record the mutations
performed. -/
structure ReconcileResult where
  final : List Str
  added : List Str
  removed : List Str
deriving DecidableEq, Repr

/-- The add pass (tasks.py lines 432-440). -/
def tagAddPass (stored metaTags : List Str) : List Str × List Str :=
  metaTags.foldl
    (fun acc t => if t ∈ acc.1 then acc else (acc.1 ++ [t], acc.2 ++ [t]))
    (stored, [])

/-- The remove pass (tasks.py lines 442-445). -/
def tagRemovePass (stored metaTags : List Str) : List Str × List Str :=
  (stored.filter (· ∈ metaTags), stored.filter (· ∉ metaTags))

/-- Tag reconciliation: add pass then remove pass. -/
def tagReconcile (stored metaTags : List Str) : ReconcileResult :=
  let a := tagAddPass stored metaTags
  let r := tagRemovePass a.1 metaTags
  ⟨r.1, a.2, r.2⟩

/-- The whole tag stage: extraction followed by reconciliation against the
current tag set of the role. -/
def tagStage (cats gtags : IterField) (stored : List Str) :
    ReconcileResult × List Msg :=
  let m := metaTagsOf cats gtags
  (tagReconcile stored m.1, m.2)

/-- The tag set the claim describes: deduplicate first, then truncate to
the first 20 (with a WARNING) only when more than 20 *distinct* tags
remain.  Stated from the words of the spec, for comparison with `metaTagsOf`
(which follows the source). -/
def claimMetaTagsOf (cats gtags : IterField) : List Str × Bool :=
  let r := rawMetaTags cats gtags
  let d := dedup r.1
  if d.length > 20 then (d.take 20, true) else (d, false)

/-! ### Dependency parsing and reconciliation (tasks.py lines 501-555) -/

/-- A stored `Role` row, as far as dependency resolution needs it:
its namespace and name (`Role.objects.get(namespace=..., name=...)`). -/
structure SRole where
  ns : Str
  name : Str
deriving DecidableEq, Repr

/-- Modelled from the spec: `Role.__unicode__`, the display key compared by
the dependency removal pass (`dep.__unicode__() not in dep_names`,
tasks.py line 553).  `models.py` is not part of the sources; the specified
data model identifies a Role by `(namespace, name)` and writes dependency
keys as `namespace.name`, so the key is modelled as the dot-joined pair. -/
def roleKey (r : SRole) : Str :=
  r.ns ++ '.' :: r.name

/-- Splits a dotted dependency string exactly as tasks.py lines 524-534 and
543-545: `dep.split(".")`; fewer than 2 pieces is an error; with more than
2 pieces the last piece is the name and the dot-join of the rest the
namespace; with exactly 2 pieces they are namespace and name. -/
def parse_dep (dep : Str) : Option (Str × Str) :=
  let names := pySplit '.' dep
  if names.length < 2 then none
  else if names.length > 2 then
    match names.getLast? with
    | some nm => some (joinDot names.dropLast, nm)
    | none => none
  else
    match names with
    | a :: b :: _ => some (a, b)
    | _ => none

/-- `Role.objects.get(namespace=ns, name=nm)`: the Django `get` succeeds only
when exactly one row matches; zero or several matches raise (both caught by
the bare `except` and reported as a lookup failure). -/
def roleGet (store : List SRole) (ns nm : Str) : Option SRole :=
  match store.filter (fun r => r.ns = ns && r.name = nm) with
  | [r] => some r
  | _ => none

/-- Resolution of one (already string-extracted) dependency entry:
parse the dotted key and look it up in the role store. -/
def depLookup (store : List SRole) (dep : Str) : Option SRole :=
  match parse_dep dep with
  | some (ns, nm) => roleGet store ns nm
  | none => none

/-- One entry of the metadata `dependencies` list as the code probes it:
a dict with a `role` key, a dict without one, a bare string, or any other
value (both of the last shapes raise inside the parse `try`). -/
inductive DepEntry
  | dictRole (s : Str)
  | dictNoRole
  | str (s : Str)
  | other
deriving DecidableEq, Repr

/-- The string the entry contributes after the dict unwrapping of
tasks.py lines 516-522, when it has one. -/
def depString : DepEntry → Option Str
  | .dictRole s => some s
  | .str s => some s
  | .dictNoRole => none
  | .other => none

/-- The per-entry lookup-failure ERROR (tasks.py lines 540-541 for the
dotted-namespace path, line 549 for the two-segment path). -/
def depNotFoundMsg (s : Str) : Msg :=
  if (pySplit '.' s).length > 2 then
    match parse_dep s with
    | some (ns, nm) =>
      mkMsg .ERROR ("Role dependency not found name: ".toList ++ nm ++ " namespace: ".toList ++ ns)
    | none => mkMsg .ERROR ("Role dependency not found".toList)
  else
    mkMsg .ERROR ("Role dependency not found: ".toList ++ s)

/-- Processing of one dependency entry (tasks.py lines 513-549) against the
current association list `cur` and the collected `dep_names`.  A shape or
format failure is a per-entry ERROR; afterwards the code still runs the
lookup branch on the (then empty) `names` list, whose IndexError is caught
by the inner bare `except` and reported as a second "not found" ERROR. -/
def depProcessEntry (store : List SRole) (acc : List SRole × List Str × List Msg)
    (e : DepEntry) : List SRole × List Str × List Msg :=
  let (cur, depNames, msgs) := acc
  match depString e with
  | none =>
    -- parse failure: ERROR, names stays [], then names[0] raises IndexError
    -- inside the lookup try, caught as a second "not found" ERROR.
    (cur, depNames,
      msgs ++ [mkMsg .ERROR ("Invalid role dependency (skipping)".toList),
               mkMsg .ERROR ("Role dependency not found".toList)])
  | some s =>
    let names := pySplit '.' s
    if names.length < 2 then
      -- the username.name format error, then the same fall-through
      (cur, depNames,
        msgs ++ [mkMsg .ERROR ("Invalid role dependency: ".toList ++ s ++ " (skipping)".toList),
                 mkMsg .ERROR ("Role dependency not found: ".toList ++ s)])
    else
      match depLookup store s with
      | some depRole =>
        (insertNew cur depRole, depNames ++ [s], msgs)
      | none =>
        (cur, depNames, msgs ++ [depNotFoundMsg s])

/-- The metadata `dependencies` field (`meta_data.get("dependencies")`). -/
inductive DepField
  | absent
  | notIter
  | items (l : List DepEntry)
deriving DecidableEq, Repr

/-- The whole dependency stage (tasks.py lines 501-555): shape checks on
the field, per-entry processing, then the removal pass dropping every
association whose display key is not among the successfully added
`dep_names`.  Returns the final association list, the `dep_names`, and the
stage messages. -/
def depStage (store : List SRole) (deps : DepField) (cur : List SRole) :
    List SRole × List Str × List Msg :=
  match deps with
  | .absent =>
    (cur, [], [mkMsg .ERROR ("meta/main.yml missing definition for dependencies. Define dependencies as [] or an iterable list.".toList)])
  | .notIter =>
    (cur, [], [mkMsg .ERROR ("Failed to iterate dependencies. Define dependencies in meta/main.yml as [] or an iterable list.".toList)])
  | .items l =>
    let r := l.foldl (depProcessEntry store) (cur, [], [])
    (r.1.filter (fun d => roleKey d ∈ r.2.1), r.2.1, r.2.2)

/-! ### Platform reconciliation (tasks.py lines 447-499) -/

/-- A stored `Platform` row: a (name, release) pair. -/
structure SPlatform where
  name : Str
  release : Str
deriving DecidableEq, Repr

/-- The `"%s-%s" % (name, release)` key collected into `platform_list` and
compared by the removal pass (tasks.py lines 480, 489, 497). -/
def platKey (p : SPlatform) : Str :=
  p.name ++ '-' :: p.release

/-- The `versions` value of one platform entry: absent (defaulted to
`["all"]`), present but not a list, or a list of strings. -/
inductive VersionsField
  | absent
  | notList
  | vlist (vs : List Str)
deriving DecidableEq, Repr

/-- One entry of `galaxy_info.platforms`: either not a dict, or a dict with
an optional `name` (absent or empty is falsy and rejected) and a
`versions` field. -/
inductive PlatEntry
  | notDict
  | pdict (name : Option Str) (versions : VersionsField)
deriving DecidableEq, Repr

/-- The version-list test of tasks.py line 473,
`len(versions) == 1 and versions == ["all"] or 'all' in versions`
(Python precedence: the `and` binds tighter than the `or`). -/
def versionsAll (vs : List Str) : Bool :=
  (vs.length = 1 && vs = ["all".toList]) || "all".toList ∈ vs

/-- `Platform.objects.get(name=n, release=v)` — exactly-one semantics as
for roles. -/
def platformGet (store : List SPlatform) (n v : Str) : Option SPlatform :=
  match store.filter (fun p => p.name = n && p.release = v) with
  | [p] => some p
  | _ => none

/-- The association add of `role.platforms.add(p)` (a set-valued relation:
no duplicate associations). -/
def addAssoc (cur : List SPlatform) (p : SPlatform) : List SPlatform :=
  insertNew cur p

/-- The platforms added for one entry whose versions mention `"all"`
(tasks.py lines 473-482): every stored platform with that name, via
`Platform.objects.filter(name=name)`. -/
def platformsForAll (store : List SPlatform) (n : Str) : List SPlatform :=
  store.filter (fun p => p.name = n)

/-- Processing of one platform entry (tasks.py lines 458-493) over the
accumulator (current associations, `platform_list` keys, messages). -/
def platProcessEntry (store : List SPlatform)
    (acc : List SPlatform × List Str × List Msg) (e : PlatEntry) :
    List SPlatform × List Str × List Msg :=
  let (cur, keys, msgs) := acc
  match e with
  | .notDict =>
    (cur, keys, msgs ++ [mkMsg .ERROR ("The platform does not appear to be a dictionary, skipping".toList)])
  | .pdict nameOpt versions =>
    let name := nameOpt.getD []
    if name.isEmpty then
      (cur, keys, msgs ++ [mkMsg .ERROR ("No name specified for platform, skipping".toList)])
    else
      match versions with
      | .notList =>
        (cur, keys, msgs ++ [mkMsg .ERROR ("No name specified for platform ".toList ++ name ++ ", skipping".toList)])
      | .absent =>
        -- versions defaults to ["all"]
        let objs := platformsForAll store name
        (objs.foldl addAssoc cur, keys ++ objs.map platKey, msgs)
      | .vlist vs =>
        if versionsAll vs then
          let objs := platformsForAll store name
          (objs.foldl addAssoc cur, keys ++ objs.map platKey, msgs)
        else
          vs.foldl
            (fun acc v =>
              match platformGet store name v with
              | some p => (addAssoc acc.1 p, acc.2.1 ++ [platKey p], acc.2.2)
              | none =>
                (acc.1, acc.2.1,
                  acc.2.2 ++ [mkMsg .ERROR ("Invalid platform: ".toList ++ name ++ '-' :: v ++ " (skipping)".toList)]))
            (cur, keys, msgs)

/-- The metadata `platforms` field. -/
inductive PlatField
  | absent
  | notIter
  | items (l : List PlatEntry)
deriving DecidableEq, Repr

/-- The whole platform stage (tasks.py lines 447-499).  When the field is
absent or not iterable only an ERROR is recorded and the removal pass does
not run; otherwise entries are processed and every current association
whose key is not in `platform_list` is removed. -/
def platformStage (store : List SPlatform) (field : PlatField)
    (cur : List SPlatform) : List SPlatform × List Msg :=
  match field with
  | .absent =>
    (cur, [mkMsg .ERROR ("galaxy_info.platforms not defined in meta.main.yml. Must be an iterable list.".toList)])
  | .notIter =>
    (cur, [mkMsg .ERROR ("Failed to iterate platforms. galaxy_info.platforms must be an iterable list in meta/main.yml.".toList)])
  | .items l =>
    let r := l.foldl (platProcessEntry store) (cur, [], [])
    (r.1.filter (fun p => platKey p ∈ r.2.1), r.2.2)

/-! ### README retrieval (tasks.py lines 159-201) -/

/-- Result of the README stage: raw content, file type, and messages.
The stage never aborts — every failure is an `add_message` ERROR. -/
structure ReadmeOut where
  raw : Option Str
  fileType : Option Str
  msgs : List Msg
deriving DecidableEq, Repr

/-- File-type detection of tasks.py lines 192-200: the *exact* filename
`README.md` gives type `md`, the exact `README.rst` gives `rst`, any other
name yields an ERROR and no type. -/
def readmeFileType (name : Str) : Option Str × List Msg :=
  if name = "README.md".toList then (some "md".toList, [])
  else if name = "README.rst".toList then (some "rst".toList, [])
  else (none,
    [mkMsg .ERROR ("Unable to determine README file type. Expecting file extension to be one of: .md, .rst".toList)])

/-- The detection rule of the claim, stated from the words of the spec for
comparison: the file type comes from the filename *suffix*, `.md` giving
`md` and `.rst` giving `rst`. -/
def claimReadmeFileType (name : Str) : Option Str :=
  if ".md".toList.isSuffixOf name then some "md".toList
  else if ".rst".toList.isSuffixOf name then some "rst".toList
  else none

/-- The README stage (tasks.py lines 159-201): an INFO message, an ERROR
when the rendered-HTML fetch fails, an ERROR when the README itself cannot
be fetched, then file-type detection; the raw content is kept even when
the type is unknown. -/
def get_readme (readme : Option (Str × Str)) (htmlOk : Bool) : ReadmeOut :=
  let msgs := [mkMsg .INFO ("Parsing and validating README".toList)]
  let msgs := msgs ++
    (if htmlOk then []
     else [mkMsg .ERROR ("Failed to get HTML version of README".toList)])
  match readme with
  | none =>
    ⟨none, none,
      msgs ++ [mkMsg .ERROR ("Failed to get README. All role repositories must include a README.".toList)]⟩
  | some (name, content) =>
    let ft := readmeFileType name
    ⟨some content, ft.1, msgs ++ ft.2⟩

/-! ### Task state machine -/

/-- The four task states. -/
inductive TState
  | PENDING
  | RUNNING
  | SUCCESS
  | FAILED
deriving DecidableEq, Repr

/-- Progress rank along the lifecycle: terminal states rank highest. -/
def TState.rank : TState → Nat
  | .PENDING => 0
  | .RUNNING => 1
  | .SUCCESS => 2
  | .FAILED => 2

/-- Terminal states. -/
def TState.terminal : TState → Bool
  | .SUCCESS => true
  | .FAILED => true
  | _ => false

/-- The successor relation of the claimed chain
PENDING → RUNNING → {SUCCESS, FAILED}. -/
def chainStep : TState → TState → Bool
  | .PENDING, .RUNNING => true
  | .RUNNING, .SUCCESS => true
  | .RUNNING, .FAILED => true
  | _, _ => false

/-- The persistent fields of an `ImportTask` row that the pipeline touches,
plus `writes`: the log of committed state transitions
`(state before, state after)` performed on the row. `createdOld` abstracts
`created ≤ now - 2h`, the age test of the stuck-import sweep. -/
structure TaskState where
  state : TState
  started : Bool := false
  finished : Bool := false
  messages : List Msg := []
  writes : List (TState × TState) := []
  createdOld : Bool := false
deriving DecidableEq, Repr

/-- `add_message` (tasks.py lines 148-156): appends one truncated message
and commits immediately, independent of the outcome of the run. -/
def addMsg (t : TaskState) (mt : MsgType) (s : Str) : TaskState :=
  { t with messages := t.messages ++ [mkMsg mt s] }

/-- Number of ERROR-severity messages — the count consulted at finalize
(tasks.py line 586). -/
def errorCount (msgs : List Msg) : Nat :=
  (msgs.filter (fun m => m.mtype = MsgType.ERROR)).length

/-- The task-row update performed by a successful ` fail_import_task`
(tasks.py lines 122-127): state FAILED, one ERROR message truncated to 255
characters (marked `fromAbort`), finished timestamp, save and commit. -/
def failTaskUpdate (t : TaskState) (msg : Str) : TaskState :=
  { t with
    state := .FAILED,
    messages := t.messages ++ [⟨.ERROR, msg.take 255, true⟩],
    finished := true,
    writes := t.writes ++ [(t.state, .FAILED)] }

/-- The start-of-run update (tasks.py lines 231-234): state RUNNING and a
started timestamp, saved and committed before any fetch. -/
def startTask (t : TaskState) : TaskState :=
  { t with state := .RUNNING, started := true,
           writes := t.writes ++ [(t.state, .RUNNING)] }

/-! ### ` fail_import_task` (tasks.py lines 116-132) -/

/-- A stand-in for the mutable `Role` row in the standalone
` fail_import_task` model (the full pipeline uses `RoleState` below). -/
structure RoleStub where
  fields : List Str
deriving DecidableEq, Repr

/-- Outcome of ` fail_import_task`: the role row as persisted after the
call (the initial `transaction.rollback()` first discards the uncommitted
role mutations before anything else), the task row, and whether the call
raised to its caller. -/
structure FailResult where
  roleRow : RoleStub
  task : Option TaskState
  raised : Bool
deriving DecidableEq, Repr

/-- ` fail_import_task` (tasks.py lines 116-132).  `committedRole` is the
last committed role row and `pendingRole` the in-memory row carrying the
uncommitted mutations of the run; the leading `transaction.rollback()` discards
the latter.  With a task handle and a working store, the task row gets the
FAILED update and is committed; if recording the failure itself fails, the
inner `except` rolls back and the row is left as it was.  In every case the
function ends by raising. -/
def fail_import_task (committedRole pendingRole : RoleStub)
    (task : Option TaskState) (msg : Str) (saveFails : Bool) : FailResult :=
  -- transaction.rollback(): the pending role mutations are discarded first
  let roleRow := committedRole
  match task with
  | none => ⟨roleRow, none, true⟩
  | some t =>
    if saveFails then ⟨roleRow, some t, true⟩
    else ⟨roleRow, some (failTaskUpdate t msg), true⟩

/-! ### `decode_yaml_file` (tasks.py lines 204-223) -/

/-- Outcome of fetching one YAML file from the repository host:
not found, content that fails base64 decoding, content that fails YAML
parsing, or decoded content. -/
inductive FetchFile (α : Type)
  | missing
  | b64Bad
  | yamlBad
  | ok (v : α)
deriving DecidableEq, Repr

/-- Result of `decode_yaml_file`: either a value (`none` when an optional
file is absent) or a fatal abort with the messages added just before
` fail_import_task` is called and the abort message itself. -/
inductive Decoded (α : Type)
  | ok (v : Option α)
  | fatal (pre : List Msg) (msg : Str)
deriving DecidableEq, Repr

/-- `decode_yaml_file` (tasks.py lines 204-223): a missing file is fatal
only when required; base64 or YAML decode failure of a present file is
always fatal, the YAML case first logging a parse ERROR. -/
def decode_yaml_file (f : FetchFile α) (fname : Str) (required : Bool) :
    Decoded α :=
  match f with
  | .missing =>
    if required then .fatal [] ("Failed to find ".toList ++ fname) else .ok none
  | .b64Bad => .fatal [] ("Failed to decode ".toList ++ fname)
  | .yamlBad =>
    .fatal [mkMsg .ERROR ("YAML parse error".toList)]
      ("Failed to parse ".toList ++ fname ++ ". Check YAML syntax.".toList)
  | .ok v => .ok (some v)

/-! ### The role row and the manifest -/

/-- The role kinds (plain / Container / Container App). -/
inductive RoleType
  | plain
  | container
  | containerApp
deriving DecidableEq, Repr

/-- The `Role` row fields the pipeline mutates. -/
structure RoleState where
  name : Str := []
  description : Str := []
  author : Str := []
  company : Str := []
  license : Str := []
  min_ansible_version : Str := []
  issue_tracker_url : Str := []
  github_branch : Str := []
  role_type : RoleType := .plain
  container_yml : Bool := false
  tags : List Str := []
  platforms : List SPlatform := []
  dependencies : List SRole := []
  readme : Option Str := none
  readme_html : Bool := false
  readme_type : Option Str := none
  versions : List Str := []
  imported : Bool := false
  is_valid : Bool := false
deriving DecidableEq, Repr

/-- `galaxy_info` of the manifest, with the fields the pipeline reads. -/
structure GalaxyInfo where
  description : Option Str := none
  author : Option Str := none
  company : Option Str := none
  license : Option Str := none
  min_ansible_version : Option Str := none
  issue_tracker_url : Option Str := none
  github_branch : Option Str := none
  categories : IterField := .absent
  galaxy_tags : IterField := .absent
  platforms : PlatField := .absent
deriving DecidableEq, Repr

/-- The decoded `meta/main.yml`. -/
structure MetaData where
  galaxy_info : Option GalaxyInfo := none
  dependencies : DepField := .absent
deriving DecidableEq, Repr

/-- `str.strip()` of Python (whitespace at both ends). -/
def pyStrip (s : Str) : Str :=
  ((s.dropWhile Char.isWhitespace).reverse.dropWhile Char.isWhitespace).reverse

/-- ` strip_input` (tasks.py lines 135-145): `None` becomes `""`,
strings are stripped. -/
def strip_input : Option Str → Str
  | none => []
  | some s => pyStrip s

/-! ### The import environment -/

/-- Everything the run observes from outside: the repository host
answers, the stores, and which storage operations fail.  `preFail`
collapses the pre-manifest fatal steps (task/role/token/API/repository
retrieval, tasks.py lines 238-275) into one optional failure message.
`urlValid` abstracts the stdlib `urlparse` scheme/host/path check
(line 357-358). -/
structure Env where
  preFail : Option Str := none
  metaMain : FetchFile MetaData := .missing
  containerYml : FetchFile Unit := .missing
  ansibleContainerYml : FetchFile Unit := .missing
  repoDescription : Option Str := none
  repoHasIssues : Bool := false
  repoHtmlUrl : Str := []
  urlValid : Str → Bool := fun _ => true
  readme : Option (Str × Str) := none
  readmeHtmlOk : Bool := true
  gitTags : Option (List Str) := some []
  platformStore : List SPlatform := []
  roleStore : List SRole := []
  roleCharLenOk : Bool := true
  taskCharLenOk : Bool := true
  finalSaveFails : Bool := false
  abortSaveFails : Bool := false
  alternateName : Option Str := none

/-- Field normalization from `galaxy_info` (tasks.py lines 299-310):
every field stripped, description defaulting to the repository
description. -/
def setFields (env : Env) (gi : GalaxyInfo) (r : RoleState) : RoleState :=
  { r with
    name := match env.alternateName with | some n => n | none => r.name,
    description := strip_input (match gi.description with
      | some d => some d
      | none => env.repoDescription),
    author := strip_input gi.author,
    company := strip_input gi.company,
    license := strip_input gi.license,
    min_ansible_version := strip_input gi.min_ansible_version,
    issue_tracker_url := strip_input gi.issue_tracker_url,
    github_branch := strip_input gi.github_branch }

/-- Field validation (tasks.py lines 329-361), in source order:
issue-tracker default from the repository, company cap 50 (WARNING),
description empty (ERROR) or cap 255 (WARNING), license empty (ERROR) or
cap 50 (WARNING), min_ansible_version default "1.9" (WARNING),
issue-tracker empty (WARNING) or malformed (WARNING and cleared). -/
def validateFields (env : Env) (r0 : RoleState) : RoleState × List Msg :=
  let r := if r0.issue_tracker_url.isEmpty && env.repoHasIssues
           then { r0 with issue_tracker_url := env.repoHtmlUrl ++ "/issues".toList }
           else r0
  let (r, m1) :=
    if !r.company.isEmpty && r.company.length > 50 then
      ({ r with company := r.company.take 50 },
       [mkMsg .WARNING ("galaxy_info.company exceeds max length of 50 in meta/main.yml".toList)])
    else (r, [])
  let (r, m2) :=
    if r.description.isEmpty then
      (r, [mkMsg .ERROR ("missing description. Add a description to GitHub repo or meta/main.yml.".toList)])
    else if r.description.length > 255 then
      ({ r with description := r.description.take 255 },
       [mkMsg .WARNING ("galaxy_info.description exceeds max length of 255 in meta/main.yml".toList)])
    else (r, [])
  let (r, m3) :=
    if r.license.isEmpty then
      (r, [mkMsg .ERROR ("galaxy_info.license missing value in meta/main.yml".toList)])
    else if r.license.length > 50 then
      ({ r with license := r.license.take 50 },
       [mkMsg .WARNING ("galaxy_info.license exceeds max length of 50 in meta/main.yml".toList)])
    else (r, [])
  let (r, m4) :=
    if r.min_ansible_version.isEmpty then
      ({ r with min_ansible_version := "1.9".toList },
       [mkMsg .WARNING ("galaxy.min_ansible_version missing value in meta/main.yml. Defaulting to 1.9.".toList)])
    else (r, [])
  let (r, m5) :=
    if r.issue_tracker_url.isEmpty then
      (r, [mkMsg .WARNING ("No issue tracker defined. Enable issue tracker in repo settings or define galaxy_info.issue_tracker_url in meta/main.yml.".toList)])
    else if !env.urlValid r.issue_tracker_url then
      ({ r with issue_tracker_url := [] },
       [mkMsg .WARNING ("Invalid URL provided for galaxy_info.issue_tracker_url in meta/main.yml".toList)])
    else (r, [])
  (r, m1 ++ m2 ++ m3 ++ m4 ++ m5)

/-- The role-version stage (tasks.py lines 560-573): `get_or_create` per
upstream tag name — append-only, existing versions are never removed; a
failure listing the tags is one ERROR. -/
def versionsStage (gitTags : Option (List Str)) (cur : List Str) :
    List Str × List Msg :=
  match gitTags with
  | none =>
    (cur, [mkMsg .ERROR ("An error occurred while importing repo tags".toList)])
  | some ts =>
    (ts.foldl insertNew cur, [])

/-- Pipeline stages, in execution order. -/
inductive Stage
  | start
  | fetchMeta
  | validate
  | containers
  | tags
  | platforms
  | deps
  | readme
  | versions
  | finalize
deriving DecidableEq, Repr

/-- The reconciliation stages of the spec. -/
def Stage.isReconcile : Stage → Bool
  | .tags => true
  | .platforms => true
  | .deps => true
  | .versions => true
  | _ => false

/-- Result of one `import_role` run: either aborted through
` fail_import_task` (the role row rolled back to its pre-run state, the
task row as the abort left it, an exception always raised), or completed
with the final task and role rows.  `stages` lists the stages that
executed. -/
inductive RunResult
  | aborted (task : Option TaskState) (role : RoleState) (stages : List Stage)
  | completed (task : TaskState) (role : RoleState) (stages : List Stage)
deriving DecidableEq, Repr

/-- The task row after an abort: the FAILED update when its save works,
the unchanged row when recording the failure state itself fails
(tasks.py lines 121-130). -/
def abortTask (env : Env) (t : TaskState) (msg : Str) : TaskState :=
  if env.abortSaveFails then t else failTaskUpdate t msg

/-- The full stage list of a run with no fatal error. -/
def allStages : List Stage :=
  [.start, .fetchMeta, .validate, .containers, .tags, .platforms, .deps,
   .readme, .versions, .finalize]

/-- The linear middle of the run (tasks.py lines 329-583): field
validation, the four reconciliation stages, README, versions, and the
char-length checks.  No branch of this stretch aborts; it transforms the
task and role rows. -/
def middleStages (env : Env) (md : MetaData) (gi : GalaxyInfo)
    (t0m : TaskState) (r0m : RoleState) : TaskState × RoleState :=
  let v := validateFields env r0m
  let r := v.1
  let t := { t0m with messages := t0m.messages ++ v.2 }
  let t := addMsg t .INFO ("Parsing galaxy_tags".toList)
  let tg := tagStage gi.categories gi.galaxy_tags r.tags
  let r := { r with tags := tg.1.final }
  let t := { t with messages := t.messages ++ tg.2 }
  let t := addMsg t .INFO ("Parsing platforms".toList)
  let pl := platformStage env.platformStore gi.platforms r.platforms
  let r := { r with platforms := pl.1 }
  let t := { t with messages := t.messages ++ pl.2 }
  let t := addMsg t .INFO ("Adding dependencies".toList)
  let dp := depStage env.roleStore md.dependencies r.dependencies
  let r := { r with dependencies := dp.1 }
  let t := { t with messages := t.messages ++ dp.2.2 }
  let rd := get_readme env.readme env.readmeHtmlOk
  let r := { r with readme := rd.raw, readme_type := rd.fileType,
                    readme_html := env.readmeHtmlOk }
  let t := { t with messages := t.messages ++ rd.msgs }
  let t := addMsg t .INFO ("Adding repo tags as role versions".toList)
  let vs := versionsStage env.gitTags r.versions
  let r := { r with versions := vs.1 }
  let t := { t with messages := t.messages ++ vs.2 }
  let t := if env.roleCharLenOk then t
           else addMsg t .ERROR ("role character length exceeded".toList)
  let t := if env.taskCharLenOk then t
           else addMsg t .ERROR ("import task character length exceeded".toList)
  (t, r)

/-- Finalize (tasks.py lines 585-609): count the ERROR messages, decide
SUCCESS or FAILED, add the closing INFO and terminal-status messages, then
persist task and role together — or abort when that last save fails (the
role row then rolls back to the pre-run `r0`). -/
def finishRun (env : Env) (t : TaskState) (r : RoleState) (r0 : RoleState)
    (stages : List Stage) : RunResult :=
  let ec := errorCount t.messages
  let importState := if ec = 0 then TState.SUCCESS else TState.FAILED
  let statusType := if ec = 0 then MsgType.SUCCESS else MsgType.FAILED
  let t := addMsg t .INFO ("Import completed".toList)
  let t := addMsg t statusType ("Status".toList)
  if env.finalSaveFails then
    .aborted (some (abortTask env t ("Error saving role".toList))) r0 stages
  else
    .completed
      { t with state := importState, finished := true,
               writes := t.writes ++ [(t.state, importState)] }
      { r with imported := true, is_valid := true }
      stages

/-- The container-descriptor stage (tasks.py lines 312-327): both optional
files are fetched (their decode failures are fatal); having both is an
ERROR, having one sets the container kind; then the run proceeds through
the middle stages into finalize. -/
def containersPhase (env : Env) (md : MetaData) (gi : GalaxyInfo)
    (t : TaskState) (r : RoleState) (r0 : RoleState) : RunResult :=
  match decode_yaml_file env.containerYml ("meta/container.yml".toList)
      false with
  | .fatal pre m =>
    .aborted (some (abortTask env { t with messages := t.messages ++ pre } m))
      r0 [Stage.start, .fetchMeta, .validate, .containers]
  | .ok cy =>
    match decode_yaml_file env.ansibleContainerYml
        ("ansible/container.yml".toList) false with
    | .fatal pre m =>
      .aborted
        (some (abortTask env { t with messages := t.messages ++ pre } m))
        r0 [Stage.start, .fetchMeta, .validate, .containers]
    | .ok acy =>
      let (r, t) :=
        match cy, acy with
        | some _, some _ =>
          (r, addMsg t .ERROR ("Found ansible/container.yml and meta/container.yml. A role can only have only one container.yml file.".toList))
        | some _, none =>
          ({ r with role_type := .container, container_yml := true },
           addMsg (addMsg t .INFO ("Found meta/container.yml".toList)) .INFO
             ("Setting role type to Container".toList))
        | none, some _ =>
          ({ r with role_type := .containerApp, container_yml := true },
           addMsg (addMsg t .INFO ("Found ansible/container.yml".toList))
             .INFO ("Setting role type to Container App".toList))
        | none, none => (r, t)
      let m := middleStages env md gi t r
      finishRun env m.1 m.2 r0 allStages

/-- The galaxy_info extraction and field normalization (tasks.py lines
294-310): a missing galaxy_info key is an ERROR and an empty mapping is
used instead. -/
def giPhase (env : Env) (md : MetaData) (t : TaskState) (r0 : RoleState) :
    RunResult :=
  let (gi, t) :=
    match md.galaxy_info with
    | some gi => (gi, t)
    | none => (({} : GalaxyInfo),
        addMsg t .ERROR ("Key galaxy_info not found in meta/main.yml".toList))
  containersPhase env md gi t (setFields env gi r0) r0

/-- The manifest fetch (tasks.py lines 289-291): the required
meta/main.yml is fetched and decoded; any failure aborts before the
validation and reconciliation stages. -/
def fetchMetaPhase (env : Env) (t : TaskState) (r0 : RoleState) : RunResult :=
  let t := addMsg t .INFO ("Starting import".toList)
  let t := addMsg t .INFO ("Accessing branch".toList)
  let t := addMsg t .INFO ("Parsing and validating meta/main.yml".toList)
  match decode_yaml_file env.metaMain ("meta/main.yml".toList) true with
  | .fatal pre m =>
    .aborted (some (abortTask env { t with messages := t.messages ++ pre } m))
      r0 [Stage.start, Stage.fetchMeta]
  | .ok mdOpt => giPhase env (mdOpt.getD {}) t r0

/-- The import pipeline (`import_role`, tasks.py lines 227-609), driven by
an `Env`.  Messages are committed as they are added; role mutations are
committed only at finalize, so every abort path returns the pre-run role
row `r0`.  The pre-manifest fatal steps (task/role/token/API/repository
retrieval) are collapsed into `env.preFail`. -/
def import_role (env : Env) (t0 : TaskState) (r0 : RoleState) : RunResult :=
  let t := startTask t0
  match env.preFail with
  | some m => .aborted (some (abortTask env t m)) r0 [Stage.start]
  | none => fetchMetaPhase env t r0

/-- The stuck-import sweep (`clear_stuck_imports`, tasks.py lines 753-771):
every task still PENDING and older than two hours is moved straight to
FAILED with a timeout ERROR message. -/
def clear_stuck_imports (tasks : List TaskState) : List TaskState :=
  tasks.map (fun t =>
    if t.createdOld && t.state = TState.PENDING then
      { t with
        state := .FAILED,
        messages := t.messages ++
          [mkMsg .ERROR ("Import timed out, please try again. If you continue seeing this message you may have a syntax error in your meta/main.yml file.".toList)],
        writes := t.writes ++ [(t.state, .FAILED)] }
    else t)

/-! ### Projections and concrete fixtures used in the statements -/

/-- The task row a run left behind (on both exits of `import_role`). -/
def taskOf : RunResult → Option TaskState
  | .aborted t _ _ => t
  | .completed t _ _ => some t

/-- Task component of a run result, with a dummy default for the
abort-without-task case. -/
def RunResult.taskD : RunResult → TaskState
  | .completed t _ _ => t
  | .aborted t _ _ => t.getD { state := .PENDING }

/-- Role component of a run result. -/
def RunResult.roleD : RunResult → RoleState
  | .completed _ r _ => r
  | .aborted _ r _ => r

/-- Stage list of a run result. -/
def RunResult.stagesD : RunResult → List Stage
  | .completed _ _ s => s
  | .aborted _ _ s => s

/-- A fresh task row as the external request handler creates it. -/
def freshTask : TaskState := { state := .PENDING }

/-- An empty role row. -/
def emptyRole : RoleState := {}

/-- A fixture environment whose run completes (no fatal error) but
accumulates ERRORs (empty manifest ⇒ missing galaxy_info, description,
license, tags, platforms, dependencies), ending in state FAILED. -/
def failedRunEnv : Env := { metaMain := .ok {} }

/-- A fixture environment whose required manifest is missing, so the run
aborts at the fetch stage. -/
def c2Env : Env := { metaMain := .missing }

/-- A PENDING task older than two hours, as the stuck-import sweep
finds it. -/
def stuckTask : TaskState := { state := .PENDING, createdOld := true }

/-- Fixture input of the tag-order counterexample: 21 valid tokens whose
first two coincide (20 distinct values). -/
def dupTagList : List Str :=
  ["x", "x", "t1", "t2", "t3", "t4", "t5", "t6", "t7", "t8", "t9", "t10",
   "t11", "t12", "t13", "t14", "t15", "t16", "t17", "t18", "t19"].map
    String.toList

/-- Fixture store for the dependency counterexample: a single role whose
name contains a dot, so its display key parses to a different
(namespace, name) pair. -/
def cexStore : List SRole := [⟨"a".toList, "b.c".toList⟩]

/-- Fixture platform store. -/
def platFixture : List SPlatform :=
  [⟨"EL".toList, "6".toList⟩, ⟨"EL".toList, "7".toList⟩,
   ⟨"Ubuntu".toList, "xenial".toList⟩]

/-! ## Supporting lemmas -/

theorem pySplit_ne_nil (sep : Char) (s : Str) : pySplit sep s ≠ [] := by
  cases s with
  | nil => simp [pySplit]
  | cons c rest =>
    cases h : pySplit sep rest with
    | nil => simp [pySplit, h]
    | cons p ps =>
      simp only [pySplit, h]
      split <;> simp

theorem pySplit_append (sep : Char) (a b : Str) :
    pySplit sep (a ++ sep :: b) = pySplit sep a ++ pySplit sep b := by
  induction a with
  | nil =>
    simp only [List.nil_append, pySplit]
    cases h : pySplit sep b with
    | nil => exact absurd h (pySplit_ne_nil sep b)
    | cons p ps => simp
  | cons c a ih =>
    show pySplit sep (c :: (a ++ sep :: b)) = pySplit sep (c :: a) ++ pySplit sep b
    cases h : pySplit sep a with
    | nil => exact absurd h (pySplit_ne_nil sep a)
    | cons p ps =>
      simp only [pySplit, ih, h, List.cons_append]
      split <;> simp

theorem pySplit_no_sep (sep : Char) (s : Str) (h : sep ∉ s) :
    pySplit sep s = [s] := by
  induction s with
  | nil => rfl
  | cons c rest ih =>
    simp only [List.mem_cons, not_or] at h
    have hc : ¬(c = sep) := fun e => h.1 e.symm
    simp only [pySplit, ih h.2, if_neg hc]

theorem joinDot_pySplit (s : Str) : joinDot (pySplit '.' s) = s := by
  induction s with
  | nil => rfl
  | cons c rest ih =>
    cases h : pySplit '.' rest with
    | nil => exact absurd h (pySplit_ne_nil _ _)
    | cons p ps =>
      rw [h] at ih
      by_cases hc : c = '.'
      · subst hc
        simp only [pySplit, h, if_pos rfl, joinDot, List.nil_append]
        cases ps <;> simp_all [joinDot]
      · simp only [pySplit, h, if_neg hc]
        cases ps with
        | nil =>
          simp only [joinDot] at ih ⊢
          rw [ih]
        | cons q qs =>
          simp only [joinDot, List.cons_append] at ih ⊢
          rw [ih]

theorem parse_dep_concat (ns nm : Str) (h : '.' ∉ nm) :
    parse_dep (ns ++ '.' :: nm) = some (ns, nm) := by
  have hsplit : pySplit '.' (ns ++ '.' :: nm) = pySplit '.' ns ++ [nm] := by
    rw [pySplit_append, pySplit_no_sep _ _ h]
  have hjoin : joinDot (pySplit '.' ns) = ns := joinDot_pySplit ns
  cases hL : pySplit '.' ns with
  | nil => exact absurd hL (pySplit_ne_nil _ _)
  | cons p ps =>
    rw [hL] at hsplit hjoin
    cases ps with
    | nil =>
      simp only [joinDot] at hjoin
      simp [parse_dep, hsplit, hjoin]
    | cons q qs =>
      have hshape : p :: q :: qs ++ [nm] = (p :: q :: qs) ++ [nm] := by simp
      have hlen : ((p :: q :: qs) ++ [nm]).length > 2 := by
        simp [List.length_append]
      simp only [parse_dep, hsplit, hshape]
      rw [if_neg (by omega), if_pos hlen, List.getLast?_concat,
        List.dropLast_concat]
      simp [hjoin]

theorem insertNew_mem {α : Type} [DecidableEq α] (acc : List α) (t x : α) :
    x ∈ insertNew acc t ↔ x ∈ acc ∨ x = t := by
  rw [insertNew]
  by_cases h : t ∈ acc
  · rw [if_pos h]
    constructor
    · exact Or.inl
    · rintro (hx | hx)
      · exact hx
      · exact hx ▸ h
  · rw [if_neg h]
    simp

theorem foldl_insert_mem {α : Type} [DecidableEq α] (l : List α) :
    ∀ (acc : List α) (x : α),
      x ∈ l.foldl insertNew acc ↔ x ∈ acc ∨ x ∈ l := by
  induction l with
  | nil => simp
  | cons h t ih =>
    intro acc x
    rw [List.foldl_cons, ih, insertNew_mem]
    simp only [List.mem_cons]
    tauto

theorem foldl_insert_of_subset {α : Type} [DecidableEq α] (l : List α) :
    ∀ acc : List α, (∀ x ∈ l, x ∈ acc) →
      l.foldl insertNew acc = acc := by
  induction l with
  | nil => intro acc _; rfl
  | cons h t ih =>
    intro acc hsub
    rw [List.foldl_cons, insertNew, if_pos (hsub h (by simp))]
    exact ih acc (fun x hx => hsub x (by simp [hx]))

theorem mem_dedup {x : Str} {l : List Str} : x ∈ dedup l ↔ x ∈ l := by
  rw [dedup, foldl_insert_mem]
  simp

theorem tagAddPass_fst (stored mt : List Str) :
    (tagAddPass stored mt).1 = mt.foldl insertNew stored := by
  have h : ∀ (acc1 acc2 : List Str),
      (mt.foldl (fun acc t => if t ∈ acc.1 then acc else (acc.1 ++ [t], acc.2 ++ [t]))
          (acc1, acc2)).1
        = mt.foldl insertNew acc1 := by
    induction mt with
    | nil => intro acc1 acc2; rfl
    | cons a t ih =>
      intro acc1 acc2
      simp only [List.foldl_cons, insertNew]
      by_cases ha : a ∈ acc1
      · simp only [if_pos ha]
        exact ih acc1 acc2
      · simp only [if_neg ha]
        exact ih (acc1 ++ [a]) (acc2 ++ [a])
  exact h stored []

theorem tagAddPass_noop (stored mt : List Str) (h : ∀ x ∈ mt, x ∈ stored) :
    tagAddPass stored mt = (stored, []) := by
  rw [tagAddPass]
  induction mt with
  | nil => rfl
  | cons a t ih =>
    rw [List.foldl_cons, if_pos (h a (by simp))]
    exact ih (fun x hx => h x (by simp [hx]))

theorem tagReconcile_final_mem (stored mt : List Str) (x : Str) :
    x ∈ (tagReconcile stored mt).final ↔ x ∈ mt := by
  show x ∈ (tagAddPass stored mt).1.filter (· ∈ mt) ↔ x ∈ mt
  rw [List.mem_filter]
  constructor
  · rintro ⟨_, hx⟩
    simpa using hx
  · intro hx
    refine ⟨?_, by simpa using hx⟩
    rw [tagAddPass_fst, foldl_insert_mem]
    exact Or.inr hx

theorem tagReconcile_idem (stored mt : List Str) :
    tagReconcile (tagReconcile stored mt).final mt =
      ⟨(tagReconcile stored mt).final, [], []⟩ := by
  have hsub : ∀ x ∈ mt, x ∈ (tagReconcile stored mt).final :=
    fun x hx => (tagReconcile_final_mem stored mt x).mpr hx
  have hall : ∀ x ∈ (tagReconcile stored mt).final, x ∈ mt :=
    fun x hx => (tagReconcile_final_mem stored mt x).mp hx
  conv_lhs => rw [tagReconcile]
  rw [tagAddPass_noop _ mt hsub]
  simp only [tagRemovePass]
  have h1 : (tagReconcile stored mt).final.filter (· ∈ mt) =
      (tagReconcile stored mt).final :=
    List.filter_eq_self.mpr (fun a ha => by simpa using hall a ha)
  have h2 : (tagReconcile stored mt).final.filter (· ∉ mt) = [] :=
    List.filter_eq_nil_iff.mpr (fun a ha => by simpa using hall a ha)
  rw [h1, h2]

/-! ## Claims -/

/-- C1 (amended): after the tag reconciliation stage the stored tag set
equals the valid colon-split tokens from categories/galaxy_tags,
*truncated to the first 20 of the raw encounter-order list when that raw
list has more than 20 entries* (the source truncates before
deduplicating), with the truncation WARNING recorded in that case; and
re-running reconciliation with the same metadata performs no additions and
no removals. -/
theorem c1_tag_stage (cats gtags : IterField) (stored : List Str) :
    (∀ x, x ∈ (tagStage cats gtags stored).1.final ↔
        x ∈ (if (rawMetaTags cats gtags).1.length > 20
             then (rawMetaTags cats gtags).1.take 20
             else (rawMetaTags cats gtags).1)) ∧
    ((rawMetaTags cats gtags).1.length > 20 →
        tagTruncWarn ∈ (tagStage cats gtags stored).2) ∧
    tagReconcile (tagStage cats gtags stored).1.final (metaTagsOf cats gtags).1 =
      ⟨(tagStage cats gtags stored).1.final, [], []⟩ := by
  refine ⟨?_, ?_, ?_⟩
  · intro x
    show x ∈ (tagReconcile stored (metaTagsOf cats gtags).1).final ↔ _
    rw [tagReconcile_final_mem]
    by_cases hlen : (rawMetaTags cats gtags).1.length > 20
    · simp only [metaTagsOf, if_pos hlen, mem_dedup]
    · simp only [metaTagsOf, if_neg hlen, mem_dedup]
  · intro hlen
    show tagTruncWarn ∈ (metaTagsOf cats gtags).2
    simp [metaTagsOf, if_pos hlen]
  · exact tagReconcile_idem stored (metaTagsOf cats gtags).1

/-- C1 counterexample: with 21 valid tokens whose first two coincide
(20 distinct values), the claimed dedup-then-truncate rule keeps all 20
distinct tags and reports no WARNING, while the code truncates first and
then deduplicates: it emits the WARNING and drops the last distinct tag. -/
theorem c1_counterexample :
    ("t19".toList ∈ (claimMetaTagsOf .absent (.items dupTagList)).1) ∧
    (claimMetaTagsOf .absent (.items dupTagList)).2 = false ∧
    ("t19".toList ∉ (tagStage .absent (.items dupTagList) []).1.final) ∧
    tagTruncWarn ∈ (tagStage .absent (.items dupTagList) []).2 := by
  decide

/-- C1 witness: the amended theorem evaluated on the fixture input. -/
theorem c1_witness :
    tagTruncWarn ∈ (tagStage .absent (.items dupTagList) []).2 ∧
    ("x".toList ∈ (tagStage .absent (.items dupTagList) []).1.final) :=
  ⟨(c1_tag_stage .absent (.items dupTagList) []).2.1 (by decide),
   ((c1_tag_stage .absent (.items dupTagList) []).1 ("x".toList)).mpr (by decide)⟩

/-- C7: a bare dotted dependency string splits on dots with all but the
last segment forming the namespace; in particular "alice.nginx" gives
namespace alice and name nginx, and "a.b.c" gives namespace a.b and
name c. -/
theorem c7_dotted_dependency_split :
    parse_dep ("alice.nginx".toList) = some ("alice".toList, "nginx".toList) ∧
    parse_dep ("a.b.c".toList) = some ("a.b".toList, "c".toList) ∧
    ∀ ns nm : Str, '.' ∉ nm → parse_dep (ns ++ '.' :: nm) = some (ns, nm) :=
  ⟨by decide, by decide, parse_dep_concat⟩

/-- C7 witness: the general split rule evaluated at a concrete input. -/
theorem c7_witness :
    parse_dep ("alice".toList ++ '.' :: "nginx".toList) =
      some ("alice".toList, "nginx".toList) :=
  c7_dotted_dependency_split.2.2 ("alice".toList) ("nginx".toList) (by decide)

/-- C8 (amended): README file-type detection compares the *exact* filename
(not the suffix): README.md yields type md, README.rst yields rst, and any
other filename yields an ERROR diagnostic with no type while the stage
still returns normally (the raw content is kept, the run is not
aborted). -/
theorem c8_readme_type (name content : Str)
    (h1 : name ≠ "README.md".toList) (h2 : name ≠ "README.rst".toList) :
    (get_readme (some (name, content)) true).fileType = none ∧
    mkMsg .ERROR ("Unable to determine README file type. Expecting file extension to be one of: .md, .rst".toList)
      ∈ (get_readme (some (name, content)) true).msgs ∧
    (get_readme (some (name, content)) true).raw = some content ∧
    (get_readme (some ("README.md".toList, content)) true).fileType =
      some ("md".toList) ∧
    (get_readme (some ("README.rst".toList, content)) true).fileType =
      some ("rst".toList) := by
  have hft : readmeFileType name =
      (none, [mkMsg .ERROR ("Unable to determine README file type. Expecting file extension to be one of: .md, .rst".toList)]) := by
    rw [readmeFileType, if_neg h1, if_neg h2]
  refine ⟨?_, ?_, ?_, by simp [get_readme, readmeFileType], by simp [get_readme, readmeFileType]⟩ <;>
    simp [get_readme, hft]

/-- C8 counterexample: a README named readme.md has the suffix .md, so the
claimed suffix rule assigns type md; the code compares the whole filename
with README.md, finds no match, and records an ERROR with no type. -/
theorem c8_counterexample :
    claimReadmeFileType ("readme.md".toList) = some ("md".toList) ∧
    (get_readme (some ("readme.md".toList, "c".toList)) true).fileType = none ∧
    mkMsg .ERROR ("Unable to determine README file type. Expecting file extension to be one of: .md, .rst".toList)
      ∈ (get_readme (some ("readme.md".toList, "c".toList)) true).msgs := by
  decide

/-- C8 witness: the amended theorem evaluated at a concrete filename. -/
theorem c8_witness :
    (get_readme (some ("OTHER.txt".toList, "c".toList)) true).fileType = none ∧
    (get_readme (some ("OTHER.txt".toList, "c".toList)) true).raw =
      some ("c".toList) := by
  have h := c8_readme_type ("OTHER.txt".toList) ("c".toList)
    (by decide) (by decide)
  exact ⟨h.1, h.2.2.1⟩

theorem foldl_addAssoc_mem (l : List SPlatform) (acc : List SPlatform)
    (x : SPlatform) : x ∈ l.foldl addAssoc acc ↔ x ∈ acc ∨ x ∈ l :=
  foldl_insert_mem l acc x

/-- C6: a platform entry whose versions list contains "all" (alone or among
other values) associates exactly the stored Platform releases bearing that
platform name: the entry adds precisely `Platform.objects.filter(name=n)`,
and with that entry as the metadata every stored release of that name is
associated after the stage while every surviving association carries one
of those keys. -/
theorem c6_platform_all (store : List SPlatform) (n : Str) (vs : List Str)
    (hn : n.isEmpty = false) (hall : "all".toList ∈ vs)
    (cur : List SPlatform) (keys : List Str) (msgs : List Msg) :
    platProcessEntry store (cur, keys, msgs) (.pdict (some n) (.vlist vs)) =
      ((platformsForAll store n).foldl addAssoc cur,
        keys ++ (platformsForAll store n).map platKey, msgs) ∧
    (∀ p ∈ store, p.name = n →
        p ∈ (platformStage store (.items [.pdict (some n) (.vlist vs)]) cur).1) ∧
    (∀ p ∈ (platformStage store (.items [.pdict (some n) (.vlist vs)]) cur).1,
        platKey p ∈ (platformsForAll store n).map platKey) := by
  have hcond : versionsAll vs = true := by
    simp only [versionsAll, Bool.or_eq_true, decide_eq_true_eq]
    exact Or.inr hall
  have hentry : ∀ (c : List SPlatform) (k : List Str) (m : List Msg),
      platProcessEntry store (c, k, m) (.pdict (some n) (.vlist vs)) =
        ((platformsForAll store n).foldl addAssoc c,
          k ++ (platformsForAll store n).map platKey, m) := by
    intro c k m
    simp [platProcessEntry, hn, hcond]
  refine ⟨hentry cur keys msgs, ?_, ?_⟩
  · intro p hp hpn
    have hmem : p ∈ platformsForAll store n := by
      rw [platformsForAll, List.mem_filter]
      exact ⟨hp, by simp [hpn]⟩
    show p ∈ (platformStage store (.items [.pdict (some n) (.vlist vs)]) cur).1
    simp only [platformStage, List.foldl_cons, List.foldl_nil, hentry]
    rw [List.mem_filter]
    constructor
    · exact (foldl_addAssoc_mem _ _ _).mpr (Or.inr hmem)
    · simp only [List.nil_append, decide_eq_true_eq]
      exact List.mem_map_of_mem platKey hmem
  · intro p hp
    simp only [platformStage, List.foldl_cons, List.foldl_nil, hentry] at hp
    have h2 := (List.mem_filter.mp hp).2
    simpa using h2

/-- C6 witness: the theorem evaluated on a concrete store and entry. -/
theorem c6_witness :
    (⟨"EL".toList, "6".toList⟩ : SPlatform) ∈
      (platformStage platFixture
        (.items [.pdict (some ("EL".toList)) (.vlist ["all".toList])]) []).1 :=
  (c6_platform_all platFixture ("EL".toList) (["all".toList])
      (by decide) (by decide) [] [] []).2.1
    ⟨"EL".toList, "6".toList⟩ (by decide) (by decide)

theorem depFold_msgs_mono (store : List SRole) (l : List DepEntry) :
    ∀ acc : List SRole × List Str × List Msg, ∀ m ∈ acc.2.2,
      m ∈ (l.foldl (depProcessEntry store) acc).2.2 := by
  induction l with
  | nil => intro acc m hm; exact hm
  | cons e t ih =>
    intro acc m hm
    apply ih
    rcases acc with ⟨cur, dn, msgs⟩
    show m ∈ (depProcessEntry store (cur, dn, msgs) e).2.2
    cases hds : depString e with
    | none => simp [depProcessEntry, hds, hm]
    | some s =>
      by_cases hlen : (pySplit '.' s).length < 2
      · simp [depProcessEntry, hds, hlen, hm]
      · cases hlk : depLookup store s with
        | some r => simp [depProcessEntry, hds, hlen, hlk, hm]
        | none => simp [depProcessEntry, hds, hlen, hlk, hm]

theorem depFold_names_sound (store : List SRole) (s : Str)
    (hfail : depLookup store s = none) (l : List DepEntry) :
    ∀ acc : List SRole × List Str × List Msg,
      s ∉ acc.2.1 → s ∉ (l.foldl (depProcessEntry store) acc).2.1 := by
  induction l with
  | nil => intro acc h; exact h
  | cons e t ih =>
    intro acc h
    apply ih
    rcases acc with ⟨cur, dn, msgs⟩
    show s ∉ (depProcessEntry store (cur, dn, msgs) e).2.1
    cases hds : depString e with
    | none => simpa [depProcessEntry, hds] using h
    | some s2 =>
      by_cases hlen : (pySplit '.' s2).length < 2
      · simpa [depProcessEntry, hds, hlen] using h
      · cases hlk : depLookup store s2 with
        | none => simpa [depProcessEntry, hds, hlen, hlk] using h
        | some r =>
          have hneq : s ≠ s2 := by
            intro he
            rw [he, hlk] at hfail
            cases hfail
          simp only [depProcessEntry, hds, hlen, hlk]
          simpa [List.mem_append, hneq] using h

theorem depFold_error_of_fail (store : List SRole) (l : List DepEntry)
    (e : DepEntry) (he : e ∈ l) (s : Str) (hds : depString e = some s)
    (hlen : ¬(pySplit '.' s).length < 2) (hfail : depLookup store s = none)
    (acc : List SRole × List Str × List Msg) :
    depNotFoundMsg s ∈ (l.foldl (depProcessEntry store) acc).2.2 := by
  obtain ⟨l1, l2, rfl⟩ := List.append_of_mem he
  rw [List.foldl_append, List.foldl_cons]
  apply depFold_msgs_mono
  rcases h1 : l1.foldl (depProcessEntry store) acc with ⟨cur, dn, msgs⟩
  show depNotFoundMsg s ∈ (depProcessEntry store (cur, dn, msgs) e).2.2
  simp [depProcessEntry, hds, hlen, hfail]

/-- C5 (amended): when a dependency key listed in the metadata fails to
resolve to exactly one stored Role, a per-item ERROR is recorded and the
run continues, but the key is excluded from the kept `dep_names`, so the
removal pass *removes* (rather than preserves) every stored dependency
association whose display key equals that key. -/
theorem c5_dep_lookup_failure (store : List SRole) (l : List DepEntry)
    (cur : List SRole) (e : DepEntry) (s : Str)
    (he : e ∈ l) (hds : depString e = some s)
    (hlen : ¬(pySplit '.' s).length < 2)
    (hfail : depLookup store s = none) :
    depNotFoundMsg s ∈ (depStage store (.items l) cur).2.2 ∧
    s ∉ (depStage store (.items l) cur).2.1 ∧
    ∀ d ∈ (depStage store (.items l) cur).1, roleKey d ≠ s := by
  refine ⟨?_, ?_, ?_⟩
  · show depNotFoundMsg s ∈ (l.foldl (depProcessEntry store) (cur, [], [])).2.2
    exact depFold_error_of_fail store l e he s hds hlen hfail (cur, [], [])
  · show s ∉ (l.foldl (depProcessEntry store) (cur, [], [])).2.1
    exact depFold_names_sound store s hfail l (cur, [], []) (by simp)
  · intro d hd
    have hd2 : d ∈ (l.foldl (depProcessEntry store) (cur, [], [])).1.filter
        (fun d => roleKey d ∈ (l.foldl (depProcessEntry store) (cur, [], [])).2.1) := hd
    have hkey := (List.mem_filter.mp hd2).2
    intro hks
    rw [hks] at hkey
    exact depFold_names_sound store s hfail l (cur, [], []) (by simp)
      (by simpa using hkey)

/-- C5 counterexample: the store holds the single role (namespace a, name
b.c) whose display key is a.b.c, and it is currently associated; the
metadata lists the dependency "a.b.c", which parses to (namespace a.b,
name c) and fails to resolve.  The code records the ERROR, yet the removal
pass removes the existing association for that key instead of preserving
it: the final association list is empty. -/
theorem c5_counterexample :
    roleKey ⟨"a".toList, "b.c".toList⟩ = "a.b.c".toList ∧
    depLookup cexStore ("a.b.c".toList) = none ∧
    depNotFoundMsg ("a.b.c".toList) ∈
      (depStage cexStore (.items [.str ("a.b.c".toList)]) cexStore).2.2 ∧
    (depStage cexStore (.items [.str ("a.b.c".toList)]) cexStore).1 = [] := by
  decide

/-- C5 witness: the amended theorem evaluated on the counterexample
fixture. -/
theorem c5_witness :
    depNotFoundMsg ("a.b.c".toList) ∈
      (depStage cexStore (.items [.str ("a.b.c".toList)]) cexStore).2.2 ∧
    "a.b.c".toList ∉
      (depStage cexStore (.items [.str ("a.b.c".toList)]) cexStore).2.1 := by
  have h := c5_dep_lookup_failure cexStore [.str ("a.b.c".toList)] cexStore
    (.str ("a.b.c".toList)) ("a.b.c".toList) (by decide) (by decide)
    (by decide) (by decide)
  exact ⟨h.1, h.2.1⟩

/-- C10: ` fail_import_task` first discards the uncommitted role mutations
of the run (rollback before anything else), then — when a task handle
exists and recording succeeds — stores state FAILED, exactly one ERROR
message truncated to 255 characters, and a finish timestamp, committing
the result; it reports a raise to the caller in every case, including a
missing task handle and a failing failure-record save (which leaves the
task row untouched). -/
theorem c10_fail_import_task (committedRole pendingRole : RoleStub)
    (task : Option TaskState) (msg : Str) (saveFails : Bool) :
    (fail_import_task committedRole pendingRole task msg saveFails).roleRow =
      committedRole ∧
    (fail_import_task committedRole pendingRole task msg saveFails).raised =
      true ∧
    (task = none →
      (fail_import_task committedRole pendingRole task msg saveFails).task =
        none) ∧
    (∀ ts, task = some ts → saveFails = false →
      (fail_import_task committedRole pendingRole task msg saveFails).task =
        some { ts with
          state := .FAILED,
          messages := ts.messages ++ [⟨.ERROR, msg.take 255, true⟩],
          finished := true,
          writes := ts.writes ++ [(ts.state, .FAILED)] }) ∧
    (∀ ts, task = some ts → saveFails = true →
      (fail_import_task committedRole pendingRole task msg saveFails).task =
        some ts) := by
  cases task <;> cases saveFails <;>
    simp [fail_import_task, failTaskUpdate]

/-- C10 witness: the theorem evaluated on a concrete call. -/
theorem c10_witness :
    (fail_import_task ⟨[]⟩ ⟨["p".toList]⟩ (some freshTask) ("boom".toList)
        false).task =
      some { freshTask with
        state := .FAILED,
        messages := freshTask.messages ++
          [⟨.ERROR, ("boom".toList).take 255, true⟩],
        finished := true,
        writes := freshTask.writes ++ [(freshTask.state, .FAILED)] } :=
  (c10_fail_import_task ⟨[]⟩ ⟨["p".toList]⟩ (some freshTask) ("boom".toList)
      false).2.2.2.1 freshTask rfl rfl

theorem decode_fatal_pre {α : Type} (f : FetchFile α) (fname : Str)
    (required : Bool) (pre : List Msg) (m : Str)
    (h : decode_yaml_file f fname required = .fatal pre m) :
    pre.filter (fun mg => mg.fromAbort) = [] := by
  cases f with
  | missing =>
    cases required with
    | false => exact absurd h (by simp [decode_yaml_file])
    | true =>
      have h2 : Decoded.fatal (α := α) []
          ("Failed to find ".toList ++ fname) = .fatal pre m := h
      injection h2 with ha hb
      rw [← ha]
      rfl
  | b64Bad =>
    have h2 : Decoded.fatal (α := α) []
        ("Failed to decode ".toList ++ fname) = .fatal pre m := h
    injection h2 with ha hb
    rw [← ha]
    rfl
  | yamlBad =>
    have h2 : Decoded.fatal (α := α)
        [mkMsg .ERROR ("YAML parse error".toList)]
        ("Failed to parse ".toList ++ fname ++
          ". Check YAML syntax.".toList) = .fatal pre m := h
    injection h2 with ha hb
    rw [← ha]
    rfl
  | ok v => exact absurd h (by simp [decode_yaml_file])

/-- C2: when fetching or decoding the required meta/main.yml fails, the
pipeline aborts directly after the fetch stage — no reconciliation stage
is entered — the role row is left at its pre-run state, the task ends in
state FAILED, and exactly one fatal-abort ERROR message (the truncated
abort message) is recorded. -/
theorem c2_required_manifest_failure (env : Env) (t0 : TaskState)
    (r0 : RoleState) (pre : List Msg) (m : Str)
    (hpre : env.preFail = none)
    (hmeta : decode_yaml_file env.metaMain ("meta/main.yml".toList) true =
      .fatal pre m)
    (hsave : env.abortSaveFails = false)
    (hfresh : t0.messages.filter (fun mg => mg.fromAbort) = []) :
    ∃ t : TaskState,
      import_role env t0 r0 =
        .aborted (some t) r0 [Stage.start, Stage.fetchMeta] ∧
      t.state = .FAILED ∧
      t.messages.filter (fun mg => mg.fromAbort) =
        [⟨.ERROR, m.take 255, true⟩] ∧
      ∀ s ∈ [Stage.start, Stage.fetchMeta], s.isReconcile = false := by
  have hpref := decode_fatal_pre env.metaMain ("meta/main.yml".toList) true
    pre m hmeta
  have habort : ∀ t : TaskState, abortTask env t m = failTaskUpdate t m := by
    intro t
    rw [abortTask, hsave]
    simp
  simp only [import_role, hpre, fetchMetaPhase, hmeta, habort]
  refine ⟨_, rfl, rfl, ?_, by decide⟩
  simp [failTaskUpdate, startTask, addMsg, List.filter_append, hfresh, hpref,
    mkMsg]

theorem errorCount_append (a b : List Msg) :
    errorCount (a ++ b) = errorCount a + errorCount b := by
  simp [errorCount, List.filter_append]

theorem errorCount_single (t : MsgType) (s : Str) (h : t ≠ MsgType.ERROR) :
    errorCount [mkMsg t s] = 0 := by
  simp [errorCount, mkMsg, h]

theorem finalize_state_iff (M : List Msg) (s1 s2 : Str) :
    ((if errorCount M = 0 then TState.SUCCESS else TState.FAILED) =
        TState.SUCCESS ↔
      errorCount ((M ++ [mkMsg .INFO s1]) ++
        [mkMsg (if errorCount M = 0 then MsgType.SUCCESS else MsgType.FAILED)
          s2]) = 0) := by
  have h2 : errorCount [mkMsg .INFO s1] = 0 :=
    errorCount_single _ _ (by simp)
  by_cases h : errorCount M = 0
  · have h3 : errorCount
        [mkMsg (if errorCount M = 0 then MsgType.SUCCESS else MsgType.FAILED)
          s2] = 0 := by
      rw [if_pos h]
      exact errorCount_single _ _ (by simp)
    rw [if_pos h, errorCount_append, errorCount_append, h3, h2, h]
    simp
  · have h3 : errorCount
        [mkMsg (if errorCount M = 0 then MsgType.SUCCESS else MsgType.FAILED)
          s2] = 0 := by
      rw [if_neg h]
      exact errorCount_single _ _ (by simp)
    rw [if_neg h, errorCount_append, errorCount_append, h2, h3]
    constructor
    · intro hc
      exact absurd hc (by decide)
    · intro hc
      exact absurd (show errorCount M = 0 by omega) h

theorem finalize_state_total (M : List Msg) :
    (if errorCount M = 0 then TState.SUCCESS else TState.FAILED) =
        TState.SUCCESS ∨
      (if errorCount M = 0 then TState.SUCCESS else TState.FAILED) =
        TState.FAILED := by
  by_cases h : errorCount M = 0 <;> simp [h]

theorem finishRun_completed (env : Env) (t : TaskState) (r r0 : RoleState)
    (stages : List Stage) (hfin : env.finalSaveFails = false) :
    ∃ t', finishRun env t r r0 stages =
        .completed t' { r with imported := true, is_valid := true } stages ∧
      (t'.state = .SUCCESS ↔ errorCount t'.messages = 0) ∧
      (t'.state = .SUCCESS ∨ t'.state = .FAILED) := by
  simp only [finishRun, hfin, Bool.false_eq_true, if_false]
  exact ⟨_, rfl, finalize_state_iff _ _ _, finalize_state_total _⟩

/-- C3: a run with no fatal error completes all stages (the full stage
list, reconciliation included) and its terminal state is SUCCESS exactly
when zero ERROR-severity messages were accumulated, FAILED otherwise. -/
theorem c3_completed_state (env : Env) (t0 : TaskState) (r0 : RoleState)
    (md : MetaData) (cy acy : Option Unit)
    (hpre : env.preFail = none)
    (hmeta : env.metaMain = .ok md)
    (hcy : decode_yaml_file env.containerYml ("meta/container.yml".toList)
      false = .ok cy)
    (hacy : decode_yaml_file env.ansibleContainerYml
      ("ansible/container.yml".toList) false = .ok acy)
    (hfin : env.finalSaveFails = false) :
    ∃ t r, import_role env t0 r0 = .completed t r allStages ∧
      (t.state = .SUCCESS ↔ errorCount t.messages = 0) ∧
      (t.state = .SUCCESS ∨ t.state = .FAILED) ∧
      (Stage.tags ∈ allStages ∧ Stage.platforms ∈ allStages ∧
        Stage.deps ∈ allStages ∧ Stage.versions ∈ allStages) := by
  have hm2 : decode_yaml_file (FetchFile.ok md) ("meta/main.yml".toList)
      true = Decoded.ok (some md) := rfl
  simp only [import_role, hpre, fetchMetaPhase, hmeta, hm2, Option.getD_some]
  cases hgi : md.galaxy_info with
  | none =>
    cases cy <;> cases acy <;>
      · simp only [giPhase, hgi, containersPhase, hcy, hacy]
        obtain ⟨t', ht, h1, h2⟩ :=
          finishRun_completed env _ _ r0 allStages hfin
        exact ⟨t', _, ht, h1, h2, by decide⟩
  | some gi =>
    cases cy <;> cases acy <;>
      · simp only [giPhase, hgi, containersPhase, hcy, hacy]
        obtain ⟨t', ht, h1, h2⟩ :=
          finishRun_completed env _ _ r0 allStages hfin
        exact ⟨t', _, ht, h1, h2, by decide⟩

/-- C2 witness: the theorem evaluated on an environment whose manifest is
missing. -/
theorem c2_witness :
    (taskOf (import_role c2Env freshTask emptyRole)).map (fun t => t.state) =
      some TState.FAILED := by
  obtain ⟨t, ht, hstate, _, _⟩ := c2_required_manifest_failure c2Env freshTask
    emptyRole [] ("Failed to find ".toList ++ "meta/main.yml".toList)
    rfl rfl rfl (by decide)
  rw [ht]
  simp [taskOf, hstate]

/-- C3 witness: the theorem evaluated on a fatal-free environment that
accumulates ERRORs. -/
theorem c3_witness :
    (import_role failedRunEnv freshTask emptyRole).stagesD = allStages := by
  obtain ⟨t, r, ht, _, _, _⟩ := c3_completed_state failedRunEnv freshTask
    emptyRole {} none none rfl rfl rfl rfl rfl
  rw [ht]
  rfl

/-- C9: on every completed (non-aborted) run — including runs whose
terminal state is FAILED because ERROR diagnostics accumulated — finalize
marks the role imported and valid before saving. -/
theorem c9_completed_marks_valid (env : Env) (t0 : TaskState)
    (r0 : RoleState) (t : TaskState) (r : RoleState) (st : List Stage)
    (h : import_role env t0 r0 = .completed t r st) :
    r.is_valid = true ∧ r.imported = true := by
  unfold import_role fetchMetaPhase giPhase containersPhase finishRun at h
  repeat' split at h
  all_goals (cases h <;> exact ⟨rfl, rfl⟩)

/-- C9 witness: the theorem evaluated on a concrete completed-but-FAILED
run. -/
theorem c9_witness :
    (import_role failedRunEnv freshTask emptyRole).roleD.is_valid = true ∧
    (import_role failedRunEnv freshTask emptyRole).roleD.imported = true :=
  c9_completed_marks_valid failedRunEnv freshTask emptyRole
    (import_role failedRunEnv freshTask emptyRole).taskD
    (import_role failedRunEnv freshTask emptyRole).roleD
    (import_role failedRunEnv freshTask emptyRole).stagesD
    (by decide)

theorem middleStages_writes (env : Env) (md : MetaData) (gi : GalaxyInfo)
    (tm : TaskState) (rm : RoleState) :
    (middleStages env md gi tm rm).1.writes = tm.writes := by
  rw [middleStages]
  repeat' split
  all_goals rfl

theorem middleStages_state (env : Env) (md : MetaData) (gi : GalaxyInfo)
    (tm : TaskState) (rm : RoleState) :
    (middleStages env md gi tm rm).1.state = tm.state := by
  rw [middleStages]
  repeat' split
  all_goals rfl

theorem import_role_writes (env : Env) (t0 : TaskState) (r0 : RoleState)
    (t : TaskState) (ht : taskOf (import_role env t0 r0) = some t) :
    t.writes = t0.writes ++ [(t0.state, TState.RUNNING)] ∨
    t.writes = t0.writes ++ [(t0.state, TState.RUNNING),
      (TState.RUNNING, TState.FAILED)] ∨
    t.writes = t0.writes ++ [(t0.state, TState.RUNNING),
      (TState.RUNNING, TState.SUCCESS)] := by
  unfold import_role fetchMetaPhase giPhase containersPhase finishRun
    abortTask at ht
  repeat' split at ht
  all_goals
    simp only [taskOf, Option.some.injEq] at ht
  all_goals subst ht
  all_goals
    simp [failTaskUpdate, startTask, addMsg, middleStages_writes,
      middleStages_state, List.append_assoc]
  all_goals tauto

/-- C4 counterexample: the stuck-import sweep moves a PENDING task
directly to FAILED; FAILED is not the successor of PENDING in the chain
PENDING → RUNNING → SUCCESS/FAILED, so a state is set that is not the
successor of the current state. -/
theorem c4_counterexample :
    (clear_stuck_imports [stuckTask]).map (fun t => t.writes) =
      [[(TState.PENDING, TState.FAILED)]] ∧
    chainStep TState.PENDING TState.FAILED = false := by
  decide

/-- C4 (amended): every committed state write of the modelled operations —
the pipeline started on a fresh PENDING task, the stuck-import sweep, and
` fail_import_task` during a run — moves strictly forward in rank
(PENDING < RUNNING < SUCCESS/FAILED) and never starts from a terminal
state, so terminal states are never overwritten; the sweep however moves
PENDING directly to FAILED, skipping RUNNING, so the strict
chain-successor form of the claim fails. -/
theorem c4_monotone_writes :
    (∀ env t0 r0 t, t0.state = TState.PENDING → t0.writes = [] →
      taskOf (import_role env t0 r0) = some t →
      ∀ p ∈ t.writes, p.1.rank < p.2.rank ∧ p.1.terminal = false) ∧
    (∀ tasks, (∀ tk ∈ tasks, ∀ p ∈ tk.writes,
        p.1.rank < p.2.rank ∧ p.1.terminal = false) →
      ∀ tk ∈ clear_stuck_imports tasks, ∀ p ∈ tk.writes,
        p.1.rank < p.2.rank ∧ p.1.terminal = false) ∧
    (∀ cr pr ts msg sf t, ts.state = TState.RUNNING →
      (∀ p ∈ ts.writes, p.1.rank < p.2.rank ∧ p.1.terminal = false) →
      (fail_import_task cr pr (some ts) msg sf).task = some t →
      ∀ p ∈ t.writes, p.1.rank < p.2.rank ∧ p.1.terminal = false) := by
  refine ⟨?_, ?_, ?_⟩
  · intro env t0 r0 t h0 hw ht p hp
    rcases import_role_writes env t0 r0 t ht with h | h | h <;>
      (rw [h, h0, hw] at hp; simp at hp)
    · subst hp
      exact ⟨by decide, by decide⟩
    · rcases hp with rfl | rfl <;> exact ⟨by decide, by decide⟩
    · rcases hp with rfl | rfl <;> exact ⟨by decide, by decide⟩
  · intro tasks hmono tk htk p hp
    rw [clear_stuck_imports, List.mem_map] at htk
    obtain ⟨t1, ht1, rfl⟩ := htk
    split at hp
    case isTrue hc =>
      simp only [List.mem_append] at hp
      rcases hp with hp | hp
      · exact hmono t1 ht1 p hp
      · simp only [List.mem_singleton] at hp
        subst hp
        have hpend : t1.state = TState.PENDING := by
          have := (Bool.and_eq_true _ _).mp hc
          simpa using this.2
        rw [hpend]
        exact ⟨by decide, by decide⟩
    case isFalse hc => exact hmono t1 ht1 p hp
  · intro cr pr ts msg sf t hstate hmono ht p hp
    cases sf with
    | true =>
      simp [fail_import_task] at ht
      subst ht
      exact hmono p hp
    | false =>
      simp [fail_import_task, failTaskUpdate] at ht
      subst ht
      simp only [List.mem_append, List.mem_singleton] at hp
      rcases hp with hp | hp
      · exact hmono p hp
      · subst hp
        rw [hstate]
        exact ⟨by decide, by decide⟩

/-- C4 witness: the amended theorem evaluated on a concrete run. -/
theorem c4_witness :
    TState.PENDING.rank < TState.RUNNING.rank ∧
      TState.PENDING.terminal = false :=
  c4_monotone_writes.1 failedRunEnv freshTask emptyRole
    (import_role failedRunEnv freshTask emptyRole).taskD rfl rfl (by decide)
    (TState.PENDING, TState.RUNNING) (by decide)

end Galaxy
